import Mathlib

/-!
A shallow embedding of the core of `card_viewer.py`:

* pixel-level frame adjustment (`adjust_hue`, `adjust_frame`, `apply_gradient`
  of `AnimatedWebPLabel`),
* star drawing (`draw_level_stars`, `draw_rank_stars` of `CardMakerWidget`),
* the description font-fit search (`draw_fitted_description`),
* the ingestion server (`OverlayServer.read_client` buffering and dispatch,
  `MainWindow.set_overlay_custom`),
* animated sprite ticking (`AnimatedWebPLabel.update_frame`).

Images are modelled as total functions from pixel coordinates to pixel
values; library raster operations whose internals live outside the
repository (PIL color-space conversion, `ImageEnhance`, `QFontMetrics`,
`json.loads`) appear as explicit function parameters of the embedded
definitions, exactly at the call sites where the source invokes them.
-/

/-- An 8-bit RGBA pixel (each channel in `0..255`). -/
structure RGBA where
  r : Nat
  g : Nat
  b : Nat
  a : Nat
deriving DecidableEq, Repr

/-- A frame as a pixel grid: the pixel at column `x`, row `y` is `f x y`. -/
abbrev Image := Nat → Nat → RGBA

/-- One pixel of the hue/saturation/value representation produced by
`image.convert("HSV")`, with `a` the alpha channel of the RGBA image the
pixel belongs to. -/
structure HSVA where
  h : Nat
  s : Nat
  v : Nat
  a : Nat
deriving DecidableEq, Repr

/-- A frame in the hue/saturation/value representation. -/
abbrev HImage := Nat → Nat → HSVA

/-- Python `int()` applied to a rational number: truncation toward zero. -/
def pyInt (q : ℚ) : Int := if q < 0 then ⌈q⌉ else ⌊q⌋

/-- The hue shift `int((hue / 360.0) * 255)` computed by
`AnimatedWebPLabel.adjust_hue`. -/
def hueShift (hue : ℚ) : Int := pyInt (hue / 360 * 255)

/-- `AnimatedWebPLabel.adjust_hue`, seen in the hue/saturation/value
representation the source converts to: the hue channel is shifted by
`hueShift hue` with wrap-around modulo 256 (`(np_h.astype(int) + shift)
% 256`), saturation and value are reused unchanged, and the final
`hsv.convert("RGBA")` resets alpha to 255. -/
def adjust_hue (hue : ℚ) (image : HImage) : HImage :=
  fun x y =>
    let p := image x y
    { h := (((p.h : Int) + hueShift hue) % 256).toNat
      s := p.s
      v := p.v
      a := 255 }

/-- `AnimatedWebPLabel.adjust_frame`: pixelwise semantics of the
crop / adjust / mask / paste pipeline.  The three image operations stand
for the calls `self.adjust_hue(mod, hue)`,
`ImageEnhance.Color(mod).enhance(saturation)` and
`ImageEnhance.Brightness(mod).enhance(1 + brightness/150)`; the numpy
masking reads only the alpha channel, so the pixel type is arbitrary with
an alpha projection `alpha`.  With a region `(x, y, w, h)` the source
crops `(x, y, x+w, y+h)`, adjusts the crop, reverts every pixel whose
original alpha is `< 255`, and pastes the result back; with no region it
adjusts the whole frame and reverts every pixel whose original alpha
is `0`. -/
def adjust_frame {P : Type} (alpha : P → Nat)
    (hueOp satOp brOp : (Nat → Nat → P) → Nat → Nat → P)
    (hue saturation brightness : ℚ)
    (region : Option (Nat × Nat × Nat × Nat))
    (frame : Nat → Nat → P) : Nat → Nat → P :=
  match region with
  | some (x, y, w, h) =>
    let orig_region : Nat → Nat → P := fun i j => frame (x + i) (y + j)
    let m1 := if hue ≠ 0 then hueOp orig_region else orig_region
    let m2 := if saturation ≠ 1 then satOp m1 else m1
    let m3 := if brightness ≠ 0 then brOp m2 else m2
    let masked : Nat → Nat → P := fun i j =>
      if alpha (orig_region i j) < 255 then orig_region i j else m3 i j
    fun px py =>
      if x ≤ px ∧ px < x + w ∧ y ≤ py ∧ py < y + h then
        masked (px - x) (py - y)
      else frame px py
  | none =>
    let m1 := if hue ≠ 0 then hueOp frame else frame
    let m2 := if saturation ≠ 1 then satOp m1 else m1
    let m3 := if brightness ≠ 0 then brOp m2 else m2
    fun px py => if alpha (frame px py) = 0 then frame px py else m3 px py

/-- The per-row alpha factor built by `AnimatedWebPLabel.apply_gradient`:
`start_y = (height - 100) // 2`, rows above `start_y` get 0, rows of the
100-row band get `np.linspace(0.0, 1.0, 100)`, i.e. `(row - start_y)/99`,
rows at `end_y` and below get 1. -/
def gradient_mask (height : Nat) (row : Nat) : ℚ :=
  let start_y : Int := ((height : Int) - 100).fdiv 2
  let end_y : Int := start_y + 100
  if (row : Int) < start_y then 0
  else if (row : Int) < end_y then ((row : ℚ) - ((start_y : Int) : ℚ)) / 99
  else 1

/-- `AnimatedWebPLabel.apply_gradient`: the alpha channel of each pixel is
multiplied by the row mask and truncated back to an integer
(`(original_alpha * mask).astype(np.uint8)`); the color channels are left
untouched.  `height` is `frame.size[1]`. -/
def apply_gradient (height : Nat) (frame : Image) : Image :=
  fun x y =>
    let p := frame x y
    { p with a := (⌊(p.a : ℚ) * gradient_mask height y⌋).toNat }

/-- A Python value passed as `level_value` to the star drawers. -/
inductive PyVal where
  | int (n : Int)
  | str (s : String)
  | noneV
deriving DecidableEq, Repr

/-- Value of a nonempty all-digit character list, `none` otherwise. -/
def digitsVal (ds : List Char) : Option Nat :=
  if ds = [] then Option.none
  else
    ds.foldl
      (fun acc c =>
        acc.bind fun a =>
          if c.isDigit then some (a * 10 + (c.toNat - '0'.toNat)) else Option.none)
      (some 0)

/-- Python `int(s)` on a string: surrounding spaces are ignored, an
optional sign precedes a nonempty digit run; anything else raises
`ValueError`, modelled as `none`. -/
def pyStrToInt (s : String) : Option Int :=
  let cs := (((s.toList.dropWhile (· = ' ')).reverse.dropWhile (· = ' ')).reverse)
  match cs with
  | '-' :: ds => (digitsVal ds).map (fun n => -(n : Int))
  | '+' :: ds => (digitsVal ds).map (fun n => (n : Int))
  | ds => (digitsVal ds).map (fun n => (n : Int))

/-- Python `int(level_value)`: `none` models the `ValueError`/`TypeError`
branch of the `try`/`except` in the star drawers. -/
def pyToInt : PyVal → Option Int
  | .int n => some n
  | .str s => pyStrToInt s
  | .noneV => Option.none

/-- `CardMakerWidget.draw_level_stars`, as the number of stars drawn:
`level = int(level_value)` with fallback 0, `stars_count = min(level,
max_stars)`, and the drawing loop runs `stars_count` times unless the
star pixmap is null or `stars_count <= 0`. -/
def draw_level_stars (level_star_isNull : Bool) (level_value : PyVal)
    (max_stars : Int) : Int :=
  let level := (pyToInt level_value).getD 0
  let stars_count := min level max_stars
  if level_star_isNull || stars_count ≤ 0 then 0 else stars_count

/-- `CardMakerWidget.draw_rank_stars`, as the number of stars drawn; the
counting logic is identical to `draw_level_stars` (the 13-star special
case only moves the layout rectangle). -/
def draw_rank_stars (rank_star_isNull : Bool) (level_value : PyVal)
    (max_stars : Int) : Int :=
  let level := (pyToInt level_value).getD 0
  let stars_count := min level max_stars
  if rank_star_isNull || stars_count ≤ 0 then 0 else stars_count

/-- The letter spacings tried by the inner `while` loop of
`draw_fitted_description`: `0.0, -0.5, -1.0, ...` while the spacing is
still `≥ min_letter_spacing`. -/
def spacing_steps (min_ls : ℚ) : List ℚ :=
  if min_ls ≤ 0 then
    (List.range ((⌊(-2 : ℚ) * min_ls⌋).toNat + 1)).map (fun (i : Nat) => -(i : ℚ) / 2)
  else []

/-- The font sizes tried by the outer `for` loop of
`draw_fitted_description`: `range(max_font_size, min_font_size - 1, -1)`,
i.e. `max_font_size` down to `min_font_size`. -/
def size_steps (max_fs min_fs : Int) : List Int :=
  (List.range (max_fs - min_fs + 1).toNat).map (fun (i : Nat) => max_fs - (i : Int))

/-- All (font size, letter spacing) combinations of
`draw_fitted_description` in the order the two nested loops try them. -/
def candidate_list (max_fs min_fs : Int) (min_ls : ℚ) : List (Int × ℚ) :=
  (size_steps max_fs min_fs).flatMap
    (fun s => (spacing_steps min_ls).map (fun sp => (s, sp)))

/-- `CardMakerWidget.draw_fitted_description`, as the (font size, letter
spacing) pair of the font chosen for drawing.  `fits s sp` stands for the
`QFontMetrics` test `metrics.boundingRect(rect, TextWordWrap,
text).height() <= rect.height()` at size `s` and spacing `sp`; the search
takes the first fitting combination and otherwise falls back to
`(min_font_size, min_letter_spacing)`. -/
def draw_fitted_description (fits : Int → ℚ → Bool)
    (max_fs min_fs : Int) (min_ls : ℚ) : Int × ℚ :=
  ((candidate_list max_fs min_fs min_ls).find? (fun c => fits c.1 c.2)).getD
    (min_fs, min_ls)

/-- A JSON document, as decoded by `json.loads`. -/
inductive Json where
  | null
  | bool (b : Bool)
  | num (n : Int)
  | str (s : String)
  | arr (elems : List Json)
  | obj (fields : List (String × Json))

/-- Lookup in a decoded JSON object; a later duplicate key overwrites an
earlier one, as in a Python dict built by `json.loads`. -/
def assoc : List (String × Json) → String → Option Json
  | [], _ => Option.none
  | (k, v) :: rest, key =>
    match assoc rest key with
    | some r => some r
    | Option.none => if k = key then some v else Option.none

/-- Python `data.get(key)`: `AttributeError` (modelled as `.error`)
unless `data` is a dict, otherwise the value or `None` for an absent
key. -/
def pyDictGet : Json → String → Except Unit (Option Json)
  | .obj fields, key => .ok (assoc fields key)
  | _, _ => .error ()

/-- The dispatch part of `OverlayServer.read_client` on a decoded
message: the `frame` value later passed to `set_overlay_custom`.
`parse_card` stands for the inner `json.loads(card_data)` (`none` models
a raising parse).  A message whose `status` is not the string
`"NewCard"` keeps `frame_type = "Default"`; a `"NewCard"` message parses
`data.get("card_data", "")` and reads `card_data.get("frameType",
"Default")`.  An `.error` result models an uncaught Python exception, in
which case the ACK write and disconnect never happen. -/
def read_client_frame (parse_card : String → Option Json) (data : Json) :
    Except Unit Json :=
  match pyDictGet data "status" with
  | .error e => .error e
  | .ok status =>
    match status with
    | some (Json.str s) =>
      if s = "NewCard" then
        match pyDictGet data "card_data" with
        | .error e => .error e
        | .ok cdOpt =>
          match cdOpt.getD (Json.str "") with
          | Json.str cs =>
            match parse_card cs with
            | some card_data =>
              match pyDictGet card_data "frameType" with
              | .error e => .error e
              | .ok ft => .ok (ft.getD (Json.str "Default"))
            | Option.none => .error ()
          | _ => .error ()
      else .ok (Json.str "Default")
    | _ => .ok (Json.str "Default")

/-- Observable outcome of handling one complete ingestion message:
whether `socket.write(b"ACK")` and `socket.disconnectFromHost()` ran, and
the `active_border` value after the scheduled
`MainWindow.set_overlay_custom(frame=frame_type, ...)` (which assigns
`self.active_border = frame`) has run. -/
structure HandleResult where
  wrote_ack : Bool
  closed : Bool
  active_border : Json

/-- Handling of one successfully decoded ingestion message by
`OverlayServer.read_client` followed by the deferred
`set_overlay_custom`: on an uncaught exception nothing further happens;
otherwise ACK is written, the socket is closed and the active border
becomes the dispatched frame. -/
def handle_message (parse_card : String → Option Json) (data : Json)
    (border : Json) : HandleResult :=
  match read_client_frame parse_card data with
  | .error _ => { wrote_ack := false, closed := false, active_border := border }
  | .ok frame => { wrote_ack := true, closed := true, active_border := frame }

/-- Per-connection state of `OverlayServer`: the byte accumulator
`self.buffers[socket]`, the log of documents decoded from the
accumulator and handed to the dispatch logic, the number of ACK
responses written, and whether the socket is still connected. -/
structure ConnState where
  buffer : List Nat
  dispatched : List Json
  acks : Nat
  connected : Bool

/-- One `readyRead` invocation of `OverlayServer.read_client`: append the
new bytes, try to decode the accumulator (`decode` stands for
`.decode("utf-8").strip()` followed by `json.loads`; `none` is the
caught `JSONDecodeError` or an undecodable byte sequence).  On failure
the accumulator is retained.  On success the accumulator is cleared
first and the dispatch logic then runs on the document: `dispatch`
stands for the statements between the buffer clear and the ACK write —
the status test and frame computation of `read_client_frame` and, for a
`"NewCard"` message, the `CardMakerWidget` render (whose pixmap load
raises `ValueError` on bad base64 data).  A `.error` outcome is an
uncaught exception escaping the slot: the ACK write, the disconnect and
the scheduled overlay update never run, but the accumulator stays
cleared.  Only an `.ok` outcome reaches `socket.write(b"ACK")` and
`socket.disconnectFromHost()`. -/
def read_client (decode : List Nat → Option Json)
    (dispatch : Json → Except Unit Json) (st : ConnState)
    (chunk : List Nat) : ConnState :=
  let buf := st.buffer ++ chunk
  match decode buf with
  | Option.none => { st with buffer := buf }
  | some doc =>
    match dispatch doc with
    | .error _ =>
      { buffer := []
        dispatched := st.dispatched ++ [doc]
        acks := st.acks
        connected := st.connected }
    | .ok _ =>
      { buffer := []
        dispatched := st.dispatched ++ [doc]
        acks := st.acks + 1
        connected := false }

/-- A sequence of reads delivered to one connection. -/
def run_reads (decode : List Nat → Option Json)
    (dispatch : Json → Except Unit Json) (st : ConnState)
    (chunks : List (List Nat)) : ConnState :=
  chunks.foldl (read_client decode dispatch) st

/-- State of an `AnimatedWebPLabel` sprite relevant to frame cycling:
the decoded frame list, the playback position `current_frame`, and the
pixmap currently shown on the label. -/
structure SpriteState (α : Type) where
  frames : List α
  current_frame : Nat
  displayed : Option α

/-- `AnimatedWebPLabel.update_frame`: if the frame list is nonempty, show
`frames[current_frame]` and then advance `current_frame` by 1 modulo the
frame count; an empty frame list leaves everything untouched. -/
def update_frame {α : Type} (st : SpriteState α) : SpriteState α :=
  if st.frames.isEmpty then st
  else
    { frames := st.frames
      current_frame := (st.current_frame + 1) % st.frames.length
      displayed := st.frames.get? st.current_frame }

/-- The hue shift as the spec words it: `round(hue/360*255)` (`round` as
in Mathlib).  Kept separate from `hueShift`, which models the truncating
`int(...)` of the source, so the two can be compared. -/
def specHueShift (hue : ℚ) : Int := round (hue / 360 * 255)

/-! ### Helper lemmas -/

theorem hueShift_neg (hue : ℚ) : hueShift (-hue) = -hueShift hue := by
  have harg : -hue / 360 * 255 = -(hue / 360 * 255) := by ring
  unfold hueShift pyInt
  rw [harg]
  rcases lt_trichotomy (hue / 360 * 255) 0 with h | h | h
  · rw [if_neg (by linarith), if_pos h, Int.floor_neg]
  · rw [h]
    norm_num
  · rw [if_pos (by linarith), if_neg (by linarith), Int.ceil_neg]

theorem spacing_steps_neg_one : spacing_steps (-1) = [0, -1/2, -1] := by
  have h : (⌊(-2 : ℚ) * (-1 : ℚ)⌋).toNat + 1 = 3 := by
    rw [show ⌊(-2 : ℚ) * (-1 : ℚ)⌋ = 2 from by norm_num]
    decide
  rw [spacing_steps, if_pos (by norm_num), h,
    show List.range 3 = [0, 1, 2] from rfl]
  simp only [List.map]
  norm_num

/-! ### Claim theorems -/

/-- C1: inside a region, every pixel whose original alpha is strictly below
255 keeps exactly its original pixel value through `adjust_frame`,
whatever the hue/saturation/brightness operations do; with no region,
exactly the fully transparent pixels (alpha = 0) are restored, and a
pixel that is translucent but not fully transparent can be altered. -/
theorem adjust_frame_alpha_preservation :
    (∀ (hueOp satOp brOp : Image → Image) (hue sat br : ℚ)
       (x y w h : Nat) (frame : Image) (px py : Nat),
       x ≤ px → px < x + w → y ≤ py → py < y + h → (frame px py).a < 255 →
       adjust_frame RGBA.a hueOp satOp brOp hue sat br (some (x, y, w, h)) frame px py
         = frame px py)
    ∧ (∀ (hueOp satOp brOp : Image → Image) (hue sat br : ℚ)
         (frame : Image) (px py : Nat),
       (frame px py).a = 0 →
       adjust_frame RGBA.a hueOp satOp brOp hue sat br Option.none frame px py
         = frame px py)
    ∧ (∃ (hueOp : Image → Image) (frame : Image) (px py : Nat),
       0 < (frame px py).a ∧ (frame px py).a < 255 ∧
       adjust_frame RGBA.a hueOp id id 1 1 0 Option.none frame px py ≠ frame px py) := by
  refine ⟨?_, ?_, ?_⟩
  · intro hueOp satOp brOp hue sat br x y w h frame px py h1 h2 h3 h4 ha
    have hx : x + (px - x) = px := by omega
    have hy : y + (py - y) = py := by omega
    simp only [adjust_frame]
    rw [if_pos ⟨h1, h2, h3, h4⟩, hx, hy, if_pos ha]
  · intro hueOp satOp brOp hue sat br frame px py ha
    simp only [adjust_frame]
    rw [if_pos ha]
  · refine ⟨fun _ _ _ => ⟨1, 2, 3, 255⟩, fun _ _ => ⟨0, 0, 0, 100⟩, 0, 0, ?_, ?_, ?_⟩
    · norm_num
    · norm_num
    · simp [adjust_frame]

/-- C1 witness: the region-scoped preservation applied to a concrete
translucent pixel. -/
theorem adjust_frame_alpha_preservation_witness :
    adjust_frame RGBA.a id id id 1 1 0 (some (0, 0, 2, 2))
      (fun _ _ => ⟨9, 9, 9, 100⟩) 0 0 = ⟨9, 9, 9, 100⟩ :=
  adjust_frame_alpha_preservation.1 id id id 1 1 0 0 0 2 2
    (fun _ _ => ⟨9, 9, 9, 100⟩) 0 0 (by norm_num) (by norm_num) (by norm_num)
    (by norm_num) (by norm_num)

/-- C3 counterexample: with hue = 1 degree the source adds
`int(1/360*255) = 0` to the hue channel, while the claimed
`round(1/360*255) = 1` would change it. -/
theorem adjust_hue_round_counterexample :
    (adjust_hue 1 (fun _ _ => ⟨0, 5, 7, 255⟩) 0 0).h
      ≠ (((((fun _ _ => (⟨0, 5, 7, 255⟩ : HSVA)) 0 0).h : Int)
          + specHueShift 1) % 256).toNat := by
  have h1 : hueShift 1 = 0 := by norm_num [hueShift, pyInt]
  have h2 : specHueShift 1 = 1 := by norm_num [specHueShift, round_eq]
  simp only [adjust_hue, h1, h2]
  omega

/-- C3 amended: `adjust_hue` adds `int(hue/360*255)` — truncation toward
zero, not rounding — to the hue channel modulo 256, leaving saturation
and value unchanged (and keeping the hue channel below 256). -/
theorem adjust_hue_truncated_shift (hue : ℚ) (hlo : -180 ≤ hue) (hhi : hue ≤ 180)
    (image : HImage) (x y : Nat) :
    (adjust_hue hue image x y).h
      = ((((image x y).h : Int) + hueShift hue) % 256).toNat
    ∧ (adjust_hue hue image x y).s = (image x y).s
    ∧ (adjust_hue hue image x y).v = (image x y).v
    ∧ (adjust_hue hue image x y).h < 256 := by
  refine ⟨rfl, rfl, rfl, ?_⟩
  simp only [adjust_hue]
  omega

/-- C3 witness: the amended statement at hue = 30. -/
theorem adjust_hue_truncated_shift_witness :
    (adjust_hue 30 (fun _ _ => ⟨10, 5, 7, 200⟩) 0 0).s = 5 :=
  (adjust_hue_truncated_shift 30 (by norm_num) (by norm_num)
    (fun _ _ => ⟨10, 5, 7, 200⟩) 0 0).2.1

theorem adjust_frame_none_hue_only {P : Type} (alpha : P → Nat)
    (hueOp satOp brOp : (Nat → Nat → P) → Nat → Nat → P) (hue : ℚ) (hz : hue ≠ 0)
    (frame : Nat → Nat → P) (px py : Nat) :
    adjust_frame alpha hueOp satOp brOp hue 1 0 Option.none frame px py
      = if alpha (frame px py) = 0 then frame px py else hueOp frame px py := by
  simp [adjust_frame, hz]

/-- C4: whole-frame adjustment with hue shift only (saturation 1.0 and
brightness 0), followed by the adjustment with the negated hue, gives
back the original hue channel of every pixel. -/
theorem adjust_frame_hue_round_trip (hue : ℚ) (hlo : -180 ≤ hue) (hhi : hue ≤ 180)
    (satOp brOp satOp2 brOp2 : HImage → HImage) (frame : HImage)
    (hb : ∀ x y, (frame x y).h < 256) (x y : Nat) :
    (adjust_frame HSVA.a (adjust_hue (-hue)) satOp2 brOp2 (-hue) 1 0 Option.none
       (adjust_frame HSVA.a (adjust_hue hue) satOp brOp hue 1 0 Option.none frame) x y).h
      = (frame x y).h := by
  by_cases hz : hue = 0
  · subst hz
    simp [adjust_frame]
  · set g := adjust_frame HSVA.a (adjust_hue hue) satOp brOp hue 1 0 Option.none frame
      with hg
    rw [adjust_frame_none_hue_only HSVA.a (adjust_hue (-hue)) satOp2 brOp2 (-hue)
      (neg_ne_zero.mpr hz) g x y]
    by_cases ha : (frame x y).a = 0
    · have hgxy : g x y = frame x y := by
        rw [hg, adjust_frame_none_hue_only HSVA.a (adjust_hue hue) satOp brOp hue hz
          frame x y, if_pos ha]
      have hga : (g x y).a = 0 := by rw [hgxy]; exact ha
      rw [if_pos hga, hgxy]
    · have hgxy : g x y = adjust_hue hue frame x y := by
        rw [hg, adjust_frame_none_hue_only HSVA.a (adjust_hue hue) satOp brOp hue hz
          frame x y, if_neg ha]
      have hga : (g x y).a = 255 := by rw [hgxy]; rfl
      rw [if_neg (by rw [hga]; norm_num)]
      have hh : (adjust_hue (-hue) g x y).h
          = ((((g x y).h : Int) + hueShift (-hue)) % 256).toNat := rfl
      have hh2 : (adjust_hue hue frame x y).h
          = ((((frame x y).h : Int) + hueShift hue) % 256).toNat := rfl
      rw [hh, hgxy, hueShift_neg, hh2]
      have hb' := hb x y
      omega

/-- C4 witness: round trip at hue = 30 on a concrete opaque-alpha
pixel. -/
theorem adjust_frame_hue_round_trip_witness :
    (adjust_frame HSVA.a (adjust_hue (-30)) id id (-30) 1 0 Option.none
       (adjust_frame HSVA.a (adjust_hue 30) id id 30 1 0 Option.none
         (fun _ _ => ⟨10, 20, 30, 5⟩)) 0 0).h = 10 :=
  adjust_frame_hue_round_trip 30 (by norm_num) (by norm_num) id id id id
    (fun _ _ => ⟨10, 20, 30, 5⟩) (fun _ _ => by norm_num) 0 0

/-- C5: the number of stars drawn is `clamp(int(value), 0, max)` with
max 12 for level stars and 13 for rank stars; a value that cannot be
converted to an integer yields 0 stars (the call site supplies the
integer 0 for a missing level, which also yields 0 stars). -/
theorem star_count_clamped (v : PyVal) :
    draw_level_stars false v 12 = max 0 (min ((pyToInt v).getD 0) 12)
    ∧ draw_rank_stars false v 13 = max 0 (min ((pyToInt v).getD 0) 13)
    ∧ (pyToInt v = Option.none →
        draw_level_stars false v 12 = 0 ∧ draw_rank_stars false v 13 = 0)
    ∧ draw_level_stars false (.int 0) 12 = 0 := by
  refine ⟨?_, ?_, ?_, rfl⟩
  · rw [draw_level_stars]
    simp only [Bool.false_or, decide_eq_true_eq]
    split <;> omega
  · rw [draw_rank_stars]
    simp only [Bool.false_or, decide_eq_true_eq]
    split <;> omega
  · intro hn
    rw [draw_level_stars, draw_rank_stars]
    simp [hn]

/-- C5 witness: a non-numeric level string draws no stars. -/
theorem star_count_clamped_witness :
    draw_level_stars false (.str "abc") 12 = 0
    ∧ draw_rank_stars false (.str "abc") 13 = 0 :=
  (star_count_clamped (.str "abc")).2.2.1 (by decide)

/-- C7: for frames at least 100 rows tall, the vertical mask is 0 above
the centered 100-row band, 1 at the band bottom row and below, strictly
increasing row to row inside the band, and the output alpha is the
original alpha multiplied by the mask (truncated to an integer), with
the color channels untouched. -/
theorem apply_gradient_mask_spec (height : Nat) (h100 : 100 ≤ height)
    (frame : Image) (x row : Nat) :
    (row < (height - 100) / 2 → gradient_mask height row = 0)
    ∧ ((height - 100) / 2 + 99 ≤ row → gradient_mask height row = 1)
    ∧ ((height - 100) / 2 ≤ row → row + 1 < (height - 100) / 2 + 100 →
        gradient_mask height row < gradient_mask height (row + 1))
    ∧ (apply_gradient height frame x row).a
        = (⌊((frame x row).a : ℚ) * gradient_mask height row⌋).toNat
    ∧ (apply_gradient height frame x row).r = (frame x row).r
    ∧ (apply_gradient height frame x row).g = (frame x row).g
    ∧ (apply_gradient height frame x row).b = (frame x row).b := by
  set syn := (height - 100) / 2 with hsyn
  have hsy : ((height : Int) - 100).fdiv 2 = (syn : Int) := by
    rw [Int.fdiv_eq_ediv _ (by norm_num), hsyn]
    omega
  refine ⟨?_, ?_, ?_, rfl, rfl, rfl, rfl⟩
  · intro h
    simp only [gradient_mask, hsy]
    rw [if_pos (by exact_mod_cast h)]
  · intro h
    simp only [gradient_mask, hsy]
    rw [if_neg (by omega)]
    by_cases hlt : (row : Int) < (syn : Int) + 100
    · rw [if_pos hlt]
      have hr : row = syn + 99 := by
        omega
      rw [hr]
      push_cast
      ring_nf
    · rw [if_neg hlt]
  · intro h1 h2
    simp only [gradient_mask, hsy]
    rw [if_neg (by omega), if_pos (by omega),
      if_neg (by omega), if_pos (by omega)]
    rw [div_lt_div_iff_of_pos_right (by norm_num)]
    push_cast
    linarith

/-- C7 witness: strict growth of the mask inside the band of a
100-row-tall frame. -/
theorem apply_gradient_mask_spec_witness :
    gradient_mask 100 5 < gradient_mask 100 6 :=
  (apply_gradient_mask_spec 100 (by norm_num) (fun _ _ => ⟨1, 2, 3, 200⟩) 0 5).2.2.1
    (by norm_num) (by norm_num)

/-- C8 counterexample: for the two-frame sprite `[10, 20]` at position 0,
the tick displays frame 10 — the frame at the position *before* the
advance — while the claim predicts the frame at the new position,
`frames[1] = 20`. -/
theorem update_frame_new_position_counterexample :
    ¬ ((update_frame (⟨[10, 20], 0, Option.none⟩ : SpriteState Nat)).displayed
        = (update_frame (⟨[10, 20], 0, Option.none⟩ : SpriteState Nat)).frames.get?
            (update_frame (⟨[10, 20], 0, Option.none⟩ : SpriteState Nat)).current_frame) := by
  decide

/-- C8 amended: each tick displays the frame at the current (pre-tick)
position and then advances the position by 1 modulo the frame count; the
frame list itself is unchanged. -/
theorem update_frame_displays_then_advances {α : Type} (st : SpriteState α)
    (hlt : st.current_frame < st.frames.length) :
    (update_frame st).current_frame = (st.current_frame + 1) % st.frames.length
    ∧ (update_frame st).displayed = some (st.frames.get ⟨st.current_frame, hlt⟩)
    ∧ (update_frame st).frames = st.frames := by
  have hne : st.frames.isEmpty = false := by
    cases h : st.frames with
    | nil => rw [h] at hlt; simp at hlt
    | cons a t => simp [h]
  unfold update_frame
  rw [hne, if_neg (by simp)]
  refine ⟨rfl, ?_, rfl⟩
  rw [List.get?_eq_get hlt]

/-- C8 witness: the amended statement on the sprite `[10, 20]` at
position 0. -/
theorem update_frame_displays_then_advances_witness :
    (update_frame (⟨[10, 20], 0, Option.none⟩ : SpriteState Nat)).current_frame = 1
    ∧ (update_frame (⟨[10, 20], 0, Option.none⟩ : SpriteState Nat)).displayed = some 10
    ∧ (update_frame (⟨[10, 20], 0, Option.none⟩ : SpriteState Nat)).frames = [10, 20] :=
  update_frame_displays_then_advances (⟨[10, 20], 0, Option.none⟩ : SpriteState Nat)
    (by decide)

/-- C10: ticking a sprite with an empty frame list is a no-op — nothing
is displayed, the position is unchanged, and no modulo-by-zero or index
error can occur since the guarded branch is never taken. -/
theorem update_frame_empty_noop {α : Type} (st : SpriteState α)
    (h : st.frames = []) :
    update_frame st = st
    ∧ (update_frame st).displayed = st.displayed
    ∧ (update_frame st).current_frame = st.current_frame := by
  have he : st.frames.isEmpty = true := by simp [h]
  unfold update_frame
  rw [he]
  exact ⟨rfl, rfl, rfl⟩

/-- C10 witness: a concrete empty sprite is left untouched by a tick. -/
theorem update_frame_empty_noop_witness :
    update_frame (⟨[], 3, Option.none⟩ : SpriteState Nat)
      = (⟨[], 3, Option.none⟩ : SpriteState Nat) :=
  (update_frame_empty_noop (⟨[], 3, Option.none⟩ : SpriteState Nat) rfl).1

/-- C2 counterexample: a complete message with no `status` field is ACKed,
but handling it moves `active_border` from its initial value `"token"` to
`"Default"` — the ActiveBorder state is *not* unchanged. -/
theorem nonNewCard_border_changed_counterexample :
    (handle_message (fun _ => Option.none) (Json.obj []) (Json.str "token")).wrote_ack
      = true
    ∧ (handle_message (fun _ => Option.none) (Json.obj []) (Json.str "token")).active_border
      ≠ Json.str "token" := by
  refine ⟨rfl, ?_⟩
  have hred : (handle_message (fun _ => Option.none) (Json.obj [])
      (Json.str "token")).active_border = Json.str "Default" := rfl
  rw [hred]
  intro hcontra
  injection hcontra with hs
  exact absurd hs (by decide)

/-- C2 amended: for every complete JSON-object message whose `status`
field is absent or not the string "NewCard", the server writes ACK and
closes the connection, and the handling sets `active_border` to
`"Default"` (so it is unchanged only when it was already
`"Default"`). -/
theorem nonNewCard_ack_and_default_border (parse_card : String → Option Json)
    (fields : List (String × Json)) (border : Json)
    (hstatus : assoc fields "status" ≠ some (Json.str "NewCard")) :
    handle_message parse_card (Json.obj fields) border
      = ⟨true, true, Json.str "Default"⟩ := by
  unfold handle_message read_client_frame pyDictGet
  cases h : assoc fields "status" with
  | none => simp only [h]
  | some j =>
    cases j with
    | str s =>
      have hs : s ≠ "NewCard" := by
        intro e
        exact hstatus (by rw [h, e])
      simp only [h]
      rw [if_neg hs]
    | null => simp only [h]
    | bool b => simp only [h]
    | num n => simp only [h]
    | arr elems => simp only [h]
    | obj fs => simp only [h]

/-- C2 witness: the amended statement on a message whose `status` is the
number 1. -/
theorem nonNewCard_ack_and_default_border_witness :
    handle_message (fun _ => Option.none) (Json.obj [("status", Json.num 1)])
      (Json.str "token") = ⟨true, true, Json.str "Default"⟩ :=
  nonNewCard_ack_and_default_border (fun _ => Option.none)
    [("status", Json.num 1)] (Json.str "token")
    (by
      intro h
      rw [show assoc [("status", Json.num 1)] "status" = some (Json.num 1) from rfl] at h
      exact Json.noConfusion (Option.some.inj h))

theorem run_reads_aux (decode : List Nat → Option Json)
    (dispatch : Json → Except Unit Json) (doc : Json) :
    ∀ (chunks : List (List Nat)) (buf : List Nat) (d : List Json) (a : Nat) (c : Bool),
      chunks ≠ [] →
      decode (buf ++ chunks.flatten) = some doc →
      (∀ k, k + 1 < chunks.length →
        decode (buf ++ (chunks.take (k + 1)).flatten) = Option.none) →
      run_reads decode dispatch ⟨buf, d, a, c⟩ chunks
        = match dispatch doc with
          | .error _ => ⟨[], d ++ [doc], a, c⟩
          | .ok _ => ⟨[], d ++ [doc], a + 1, false⟩ := by
  intro chunks
  induction chunks with
  | nil => intro buf d a c hne; exact absurd rfl hne
  | cons ck rest ih =>
    intro buf d a c _ hfull hpart
    cases rest with
    | nil =>
      have h1 : decode (buf ++ ck) = some doc := by
        simpa using hfull
      cases hd : dispatch doc with
      | error e => simp [run_reads, read_client, h1, hd]
      | ok fr => simp [run_reads, read_client, h1, hd]
    | cons c2 rest2 =>
      have h0 : decode (buf ++ ck) = Option.none := by
        have := hpart 0 (by simp)
        simpa using this
      have step : read_client decode dispatch ⟨buf, d, a, c⟩ ck = ⟨buf ++ ck, d, a, c⟩ := by
        simp [read_client, h0]
      rw [run_reads, List.foldl_cons, step]
      rw [show List.foldl (read_client decode dispatch) (⟨buf ++ ck, d, a, c⟩ : ConnState)
        (c2 :: rest2) = run_reads decode dispatch ⟨buf ++ ck, d, a, c⟩ (c2 :: rest2) from rfl]
      apply ih (buf ++ ck) d a c (by simp)
      · rw [List.append_assoc]
        simpa [List.flatten_cons] using hfull
      · intro k hk
        have := hpart (k + 1) (by simpa using Nat.succ_lt_succ hk)
        rw [List.append_assoc]
        simpa [List.flatten_cons] using this

/-- C9: when the concatenation of the reads of one connection decodes to
a JSON document and no proper prefix of reads decodes (a partial
message), the run over those reads decodes the document and hands it to
the dispatch logic exactly once and leaves the byte accumulator
cleared, whatever the dispatch block does; when the dispatch block
completes, one ACK is written and the socket closes, and when it raises
no ACK is written and the socket stays open.  Any single read whose
accumulated bytes fail to decode dispatches nothing and only extends
the retained accumulator. -/
theorem read_client_reassembly (decode : List Nat → Option Json)
    (dispatch : Json → Except Unit Json)
    (chunks : List (List Nat)) (doc : Json)
    (hne : chunks ≠ [])
    (hfull : decode chunks.flatten = some doc)
    (hpart : ∀ k, k + 1 < chunks.length →
      decode ((chunks.take (k + 1)).flatten) = Option.none) :
    ((run_reads decode dispatch ⟨[], [], 0, true⟩ chunks).dispatched = [doc]
      ∧ (run_reads decode dispatch ⟨[], [], 0, true⟩ chunks).buffer = [])
    ∧ (∀ frame, dispatch doc = .ok frame →
        run_reads decode dispatch ⟨[], [], 0, true⟩ chunks = ⟨[], [doc], 1, false⟩)
    ∧ (∀ e, dispatch doc = .error e →
        run_reads decode dispatch ⟨[], [], 0, true⟩ chunks = ⟨[], [doc], 0, true⟩)
    ∧ (∀ (st : ConnState) (chunk : List Nat),
        decode (st.buffer ++ chunk) = Option.none →
        read_client decode dispatch st chunk
          = { st with buffer := st.buffer ++ chunk }) := by
  have haux := run_reads_aux decode dispatch doc chunks [] [] 0 true hne
    (by simpa using hfull) (by intro k hk; simpa using hpart k hk)
  refine ⟨?_, ?_, ?_, ?_⟩
  · cases hd : dispatch doc with
    | error e =>
      rw [haux]
      simp [hd]
    | ok fr =>
      rw [haux]
      simp [hd]
  · intro frame hd
    rw [haux, hd]
    simp
  · intro e hd
    rw [haux, hd]
    simp
  · intro st chunk hfail
    simp [read_client, hfail]

/-- C9 witness: a document split over two reads is decoded and handed to
the dispatch logic exactly once with a cleared accumulator; the
dispatch completing, one ACK is written and the socket closes. -/
theorem read_client_reassembly_witness :
    run_reads (fun bs => if bs = [1, 2] then some (Json.num 5) else Option.none)
      (fun d => Except.ok d) ⟨[], [], 0, true⟩ [[1], [2]]
      = ⟨[], [Json.num 5], 1, false⟩ :=
  ((read_client_reassembly (fun bs => if bs = [1, 2] then some (Json.num 5) else Option.none)
    (fun d => Except.ok d) [[1], [2]] (Json.num 5) (by simp)
    (by simp)
    (by
      intro k hk
      have hk0 : k = 0 := by simp at hk; omega
      subst hk0
      simp)).2.1) (Json.num 5) rfl

theorem find?_sorted_max {α : Type} [LinearOrder α] (p : α → Bool) :
    ∀ (l : List α), l.Pairwise (· > ·) → ∀ r, l.find? p = some r →
      p r = true ∧ r ∈ l ∧ ∀ b ∈ l, p b = true → b ≤ r := by
  intro l
  induction l with
  | nil => intro _ r hr; cases hr
  | cons a t ih =>
    intro hp r hr
    cases hpa : p a with
    | true =>
      rw [List.find?_cons, hpa] at hr
      obtain rfl : a = r := Option.some.inj hr
      refine ⟨hpa, List.mem_cons_self a t, ?_⟩
      intro b hb hpb
      rcases List.mem_cons.mp hb with rfl | hbt
      · exact le_refl b
      · exact le_of_lt ((List.pairwise_cons.mp hp).1 b hbt)
    | false =>
      rw [List.find?_cons, hpa] at hr
      obtain ⟨h1, h2, h3⟩ := ih (List.pairwise_cons.mp hp).2 r hr
      refine ⟨h1, List.mem_cons_of_mem a h2, ?_⟩
      intro b hb hpb
      rcases List.mem_cons.mp hb with rfl | hbt
      · rw [hpb] at hpa; cases hpa
      · exact h3 b hbt hpb

theorem find?_prod_spec (fits : Int → ℚ → Bool) :
    ∀ (sizes : List Int) (spacs : List ℚ),
      sizes.Pairwise (· > ·) → spacs.Pairwise (· > ·) →
      (∀ r, (sizes.flatMap (fun s => spacs.map (fun sp => (s, sp)))).find?
          (fun c => fits c.1 c.2) = some r →
        fits r.1 r.2 = true ∧ r.1 ∈ sizes ∧ r.2 ∈ spacs ∧
          ∀ s ∈ sizes, ∀ sp ∈ spacs, fits s sp = true →
            s < r.1 ∨ (s = r.1 ∧ sp ≤ r.2))
      ∧ ((sizes.flatMap (fun s => spacs.map (fun sp => (s, sp)))).find?
          (fun c => fits c.1 c.2) = Option.none →
        ∀ s ∈ sizes, ∀ sp ∈ spacs, fits s sp = false) := by
  intro sizes
  induction sizes with
  | nil =>
    intro spacs _ _
    constructor
    · intro r hr; cases hr
    · intro _ s hs
      exact absurd hs (List.not_mem_nil s)
  | cons s0 rest ih =>
    intro spacs hsz hsp
    have hhead : ∀ b ∈ rest, s0 > b := (List.pairwise_cons.mp hsz).1
    have htail := (List.pairwise_cons.mp hsz).2
    have hsplit : ((s0 :: rest).flatMap
          (fun s => spacs.map (fun sp => (s, sp)))).find? (fun c => fits c.1 c.2)
        = ((spacs.find? (fun sp => fits s0 sp)).map (fun sp => (s0, sp))).or
          ((rest.flatMap (fun s => spacs.map (fun sp => (s, sp)))).find?
            (fun c => fits c.1 c.2)) := by
      rw [List.flatMap_cons, List.find?_append, List.find?_map]
      rfl
    obtain ⟨ihs, ihn⟩ := ih spacs htail hsp
    constructor
    · intro r hr
      rw [hsplit] at hr
      cases hfind : spacs.find? (fun sp => fits s0 sp) with
      | some sp0 =>
        rw [hfind] at hr
        obtain rfl : (s0, sp0) = r := Option.some.inj hr
        obtain ⟨hp0, hm0, hb0⟩ := find?_sorted_max (fun sp => fits s0 sp) spacs hsp sp0 hfind
        refine ⟨hp0, List.mem_cons_self s0 rest, hm0, ?_⟩
        intro s hs sp hsps hfit
        rcases List.mem_cons.mp hs with rfl | hsrest
        · exact Or.inr ⟨rfl, hb0 sp hsps hfit⟩
        · exact Or.inl (hhead s hsrest)
      | none =>
        rw [hfind, Option.map_none', Option.none_or] at hr
        obtain ⟨h1, h2, h3, h4⟩ := ihs r hr
        have hnone := List.find?_eq_none.mp hfind
        refine ⟨h1, List.mem_cons_of_mem s0 h2, h3, ?_⟩
        intro s hs sp hsps hfit
        rcases List.mem_cons.mp hs with rfl | hsrest
        · exact absurd hfit (hnone sp hsps)
        · exact h4 s hsrest sp hsps hfit
    · intro hr
      rw [hsplit] at hr
      cases hfind : spacs.find? (fun sp => fits s0 sp) with
      | some sp0 =>
        rw [hfind] at hr
        cases hr
      | none =>
        rw [hfind, Option.map_none', Option.none_or] at hr
        have hnone := List.find?_eq_none.mp hfind
        intro s hs sp hsps
        rcases List.mem_cons.mp hs with rfl | hsrest
        · cases hfs : fits s sp
          · rfl
          · exact absurd hfs (hnone sp hsps)
        · exact ihn hr s hsrest sp hsps

theorem mem_size_steps {max_fs min_fs s : Int} :
    s ∈ size_steps max_fs min_fs ↔ min_fs ≤ s ∧ s ≤ max_fs := by
  unfold size_steps
  constructor
  · intro h
    obtain ⟨i, hi, rfl⟩ := List.mem_map.mp h
    have hi2 := List.mem_range.mp hi
    omega
  · intro h
    exact List.mem_map.mpr ⟨(max_fs - s).toNat, List.mem_range.mpr (by omega), by omega⟩

theorem size_steps_sorted (max_fs min_fs : Int) :
    (size_steps max_fs min_fs).Pairwise (· > ·) := by
  unfold size_steps
  rw [List.pairwise_map]
  exact (List.pairwise_lt_range _).imp (by intro a b hab; omega)

theorem spacing_steps_neg_one_sorted : (spacing_steps (-1)).Pairwise (· > ·) := by
  rw [spacing_steps_neg_one]
  norm_num [List.pairwise_cons]

/-- C6: the font-fit search tries sizes descending from the maximum to
the minimum and, within each size, the spacings 0, -0.5, -1.0; the chosen
pair is the first fitting combination in that order (largest size, then
least-negative spacing among fitting pairs of that size), and when
nothing fits the result is the fallback (minimum size, most negative
spacing). -/
theorem font_fit_search_first_fit (fits : Int → ℚ → Bool) (max_fs min_fs : Int) :
    spacing_steps (-1) = [0, -1/2, -1]
    ∧ ((∀ s, min_fs ≤ s → s ≤ max_fs → ∀ sp ∈ spacing_steps (-1), fits s sp = false) →
        draw_fitted_description fits max_fs min_fs (-1) = (min_fs, -1))
    ∧ ((∃ s sp, min_fs ≤ s ∧ s ≤ max_fs ∧ sp ∈ spacing_steps (-1) ∧ fits s sp = true) →
        (fits (draw_fitted_description fits max_fs min_fs (-1)).1
          (draw_fitted_description fits max_fs min_fs (-1)).2 = true
        ∧ min_fs ≤ (draw_fitted_description fits max_fs min_fs (-1)).1
        ∧ (draw_fitted_description fits max_fs min_fs (-1)).1 ≤ max_fs
        ∧ (draw_fitted_description fits max_fs min_fs (-1)).2 ∈ spacing_steps (-1)
        ∧ ∀ s sp, min_fs ≤ s → s ≤ max_fs → sp ∈ spacing_steps (-1) →
            fits s sp = true →
            s < (draw_fitted_description fits max_fs min_fs (-1)).1
            ∨ (s = (draw_fitted_description fits max_fs min_fs (-1)).1
                ∧ sp ≤ (draw_fitted_description fits max_fs min_fs (-1)).2))) := by
  have hspec := find?_prod_spec fits (size_steps max_fs min_fs) (spacing_steps (-1))
    (size_steps_sorted _ _) spacing_steps_neg_one_sorted
  have hd : draw_fitted_description fits max_fs min_fs (-1)
      = (((size_steps max_fs min_fs).flatMap
          (fun s => (spacing_steps (-1)).map (fun sp => (s, sp)))).find?
          (fun c => fits c.1 c.2)).getD (min_fs, -1) := rfl
  refine ⟨spacing_steps_neg_one, ?_, ?_⟩
  · intro hall
    rw [hd]
    cases hf : ((size_steps max_fs min_fs).flatMap
        (fun s => (spacing_steps (-1)).map (fun sp => (s, sp)))).find?
        (fun c => fits c.1 c.2) with
    | none => rfl
    | some r =>
      obtain ⟨h1, h2, h3, _⟩ := hspec.1 r hf
      have := hall r.1 (mem_size_steps.mp h2).1 (mem_size_steps.mp h2).2 r.2 h3
      rw [h1] at this
      cases this
  · rintro ⟨s, sp, hs1, hs2, hsps, hfit⟩
    rw [hd]
    cases hf : ((size_steps max_fs min_fs).flatMap
        (fun s => (spacing_steps (-1)).map (fun sp => (s, sp)))).find?
        (fun c => fits c.1 c.2) with
    | none =>
      have := hspec.2 hf s (mem_size_steps.mpr ⟨hs1, hs2⟩) sp hsps
      rw [hfit] at this
      cases this
    | some r =>
      obtain ⟨h1, h2, h3, h4⟩ := hspec.1 r hf
      refine ⟨h1, (mem_size_steps.mp h2).1, (mem_size_steps.mp h2).2, h3, ?_⟩
      intro s2 sp2 ha hb hc hd2
      exact h4 s2 (mem_size_steps.mpr ⟨ha, hb⟩) sp2 hc hd2

/-- C6 witness: when no combination fits, the search falls back to the
minimum size with the most negative spacing. -/
theorem font_fit_search_first_fit_witness :
    draw_fitted_description (fun _ _ => false) 12 9 (-1) = (9, -1) :=
  (font_fit_search_first_fit (fun _ _ => false) 12 9).2.1
    (by intro s _ _ sp _; rfl)
